import Mathlib

/-
  Verification of the StudioBid single-page auction client.

  The definitions below are a shallow embedding of the pure data paths of
  src/js/pages/index.js, src/js/pages/listing.js, src/js/pages/listingUtils.js
  and src/js/api/httpClient.js.  Conventions used throughout:

  * JavaScript strings are Lean Strings; String.prototype.toLowerCase is
    modelled character-wise (the strings the pages compare are ASCII).
  * Date values (the created and endsAt fields) are modelled by the result of
    parsing them: an Option Int holding the epoch-millisecond value, with none
    standing for a missing, null, empty or unparseable date (new Date(x) with
    NaN time).  Date.now() is passed in explicitly as the parameter now.
  * Optional / possibly-absent JSON fields are Option values; the JavaScript
    falsiness checks on them are spelled out at each use site.
  * Array.prototype.sort (a comparison sort) is modelled by List.mergeSort on
    the Bool relation (cmp a b <= 0) for the same comparator cmp.
  * fallible paths return Except, DOM side effects are explicit state records.
-/

namespace StudioBid

/-- Character-wise model of JavaScript String.prototype.toLowerCase (ASCII). -/
def jsToLower (s : String) : String := String.mk (s.data.map Char.toLower)

/-- Model of the JavaScript test s.indexOf(pat) !== -1: pat occurs
contiguously inside s. -/
def strContains (s pat : String) : Bool := decide (pat.data <:+: s.data)

/-- Seller record attached to a listing (the seller.name accesses in the pages). -/
structure SellerInfo where
  name : Option String := none
  deriving Repr, DecidableEq

/-- A bid on a listing; amount is none when the field is missing or not a
number (the typeof bid.amount === number guards). -/
structure Bid where
  amount : Option Int := none
  created : Option Int := none
  bidder : Option String := none
  deriving Repr, DecidableEq

/-- A listing as consumed by the pages.  created and endsAt hold the parsed
epoch-millisecond time, none when missing or unparseable. -/
structure Listing where
  id : Option String := none
  title : Option String := none
  description : Option String := none
  tags : List String := []
  seller : Option SellerInfo := none
  bids : Option (List Bid) := none
  created : Option Int := none
  endsAt : Option Int := none
  deriving Repr, DecidableEq

/-- PAGE_SIZE, src/js/pages/index.js line 23. -/
def PAGE_SIZE : Nat := 12

/-- getHighestBidAmount, src/js/pages/index.js lines 244-252.  bids is [] when
the field is missing or not an array; a non-number amount counts as 0. -/
def getHighestBidAmount (listing : Listing) : Int :=
  let bids := listing.bids.getD []
  if bids.isEmpty then 0
  else bids.foldl (fun mx bid =>
    let amount := bid.amount.getD 0
    if amount > mx then amount else mx) 0

/-- isListingEnded, src/js/pages/index.js lines 325-330.  A missing, empty or
unparseable endsAt (endsAt = none) yields false. -/
def isListingEnded (now : Int) (listing : Listing) : Bool :=
  match listing.endsAt with
  | some endTime => decide (endTime ≤ now)
  | none => false

/-- getRelevanceScore, src/js/pages/index.js lines 340-387. -/
def getRelevanceScore (listing : Listing) (query : String) : Nat :=
  if query = "" then 0
  else
    let q := jsToLower query
    let title := jsToLower (listing.title.getD "")
    let description := jsToLower (listing.description.getD "")
    let sellerName := jsToLower ((listing.seller.bind SellerInfo.name).getD "")
    let afterTitle : Nat :=
      if title = q then 100 else if strContains title q then 60 else 0
    let afterTags : Nat := listing.tags.foldl (fun score tag =>
      let tagStr := jsToLower tag
      if tagStr = "" then score
      else if tagStr = q then score + 40
      else if strContains tagStr q then score + 20
      else score) afterTitle
    let afterDescription : Nat :=
      if description = "" then afterTags
      else if strContains description q then afterTags + 20
      else afterTags
    if sellerName = "" then afterDescription
    else if strContains sellerName q then afterDescription + 10
    else afterDescription

/-- The highest-bid comparator from sortComparators, src/js/pages/index.js
lines 398-402. -/
def highestBidCmp (a b : Listing) : Int :=
  getHighestBidAmount b - getHighestBidAmount a

/-- The newest comparator from sortComparators, src/js/pages/index.js lines
403-412: 0 when either created time is NaN or the times are equal, otherwise
bTime - aTime. -/
def newestCmp (a b : Listing) : Int :=
  match a.created, b.created with
  | some aTime, some bTime => if aTime = bTime then 0 else bTime - aTime
  | _, _ => 0

/-- The ending-soon comparator from sortComparators, src/js/pages/index.js
lines 413-422. -/
def endingSoonCmp (a b : Listing) : Int :=
  match a.endsAt, b.endsAt with
  | some aEnd, some bEnd => if aEnd = bEnd then 0 else aEnd - bEnd
  | _, _ => 0

/-- Lookup in the sortComparators table (src/js/pages/index.js lines 397-423);
none models an unknown key (undefined in JavaScript). -/
def sortComparators (key : String) : Option (Listing → Listing → Int) :=
  if key = "highest-bid" then some highestBidCmp
  else if key = "newest" then some newestCmp
  else if key = "ending-soon" then some endingSoonCmp
  else none

/-- The comparator closure passed to listings.sort inside sortSearchResults,
src/js/pages/index.js lines 441-454. -/
def searchResultCmp (query sortKey : String) (a b : Listing) : Int :=
  let comparator := if sortKey = "" then none else sortComparators sortKey
  let scoreA : Int := getRelevanceScore a query
  let scoreB : Int := getRelevanceScore b query
  if scoreA ≠ scoreB then scoreB - scoreA
  else
    match comparator with
    | some cmp => cmp a b
    | none => 0

/-- sortSearchResults, src/js/pages/index.js lines 434-455, as a pure list
transformation (the in-place Array.prototype.sort becomes a sorted copy). -/
def sortSearchResults (listings : List Listing) (query sortKey : String) : List Listing :=
  if listings.isEmpty ∨ query = "" then listings
  else listings.mergeSort (fun a b => searchResultCmp query sortKey a b ≤ 0)

/-- sortNonSearchResults, src/js/pages/index.js lines 465-473. -/
def sortNonSearchResults (listings : List Listing) (sortKey : String) : List Listing :=
  if listings.isEmpty then listings
  else if sortKey = "highest-bid" then
    listings.mergeSort (fun a b => highestBidCmp a b ≤ 0)
  else listings

/-- The listing && listing.id ? listing.id : null computation in
renderListings (src/js/pages/index.js line 624). -/
def listingIdOf (listing : Listing) : Option String :=
  match listing.id with
  | some s => if s = "" then none else some s
  | none => none

/-- DOM/session state of the index page: the listing columns currently in the
container (template aside) and the loadedListingIds set (insertion order). -/
structure RenderState where
  rendered : List Listing := []
  loadedListingIds : List String := []
  deriving Repr, DecidableEq

/-- Set.prototype.add on the loadedListingIds set. -/
def setAdd (s : List String) (x : String) : List String :=
  if x ∈ s then s else s ++ [x]

/-- One iteration of the forEach inside renderListings, src/js/pages/index.js
lines 623-640 (createListingCard succeeds whenever the template exists, which
the enclosing guard has established). -/
def renderOne (append : Bool) (acc : RenderState × Nat) (listing : Listing) :
    RenderState × Nat :=
  let (st, count) := acc
  match listingIdOf listing with
  | some id =>
    if append ∧ id ∈ st.loadedListingIds then acc
    else (⟨st.rendered ++ [listing], setAdd st.loadedListingIds id⟩, count + 1)
  | none => (⟨st.rendered ++ [listing], st.loadedListingIds⟩, count + 1)

/-- renderListings, src/js/pages/index.js lines 607-645: clearListings (lines
137-151) runs first when append is false; the result is the new state and the
newlyRenderedCount return value. -/
def renderListings (listings : List Listing) (append : Bool) (st : RenderState) :
    RenderState × Nat :=
  let st0 := if append then st else ⟨[], []⟩
  listings.foldl (renderOne append) (st0, 0)

/-- sortConfig, src/js/pages/index.js lines 38-42. -/
def sortConfig (key : String) : Option (String × String) :=
  if key = "newest" then some ("created", "desc")
  else if key = "ending-soon" then some ("endsAt", "asc")
  else if key = "highest-bid" then some ("created", "desc")
  else none

/-- addSortParams, src/js/pages/index.js lines 163-173. -/
def addSortParams (currentSort : String) (parts : List String) : List String :=
  match sortConfig currentSort with
  | none => parts
  | some (s, ord) => parts ++ ["sort=" ++ s, "sortOrder=" ++ ord]

/-- addBaseListingParams, src/js/pages/index.js lines 182-189. -/
def addBaseListingParams (currentSort : String) (currentPage : Nat)
    (parts : List String) : List String :=
  addSortParams currentSort
    (parts ++ ["_active=true", "_seller=true", "_bids=true",
      "limit=" ++ toString PAGE_SIZE, "page=" ++ toString currentPage])

/-- buildListingsQueryString, src/js/pages/index.js lines 196-200. -/
def buildListingsQueryString (currentSort : String) (currentPage : Nat) : String :=
  "?" ++ String.intercalate "&" (addBaseListingParams currentSort currentPage [])

/-- Result of one fetchListings round: new render state, the
newlyRenderedCount, and whether the load-more button is visible afterwards. -/
structure FetchOutcome where
  state : RenderState
  newlyRenderedCount : Nat
  loadMoreVisible : Bool
  deriving Repr, DecidableEq

/-- The pure data path of fetchListings, src/js/pages/index.js lines 709-737:
the ended filter, the search/non-search sort, renderListings, and the
load-more visibility update (lines 726-737; when neither branch runs the
button keeps its previous visibility). -/
def fetchListingsCore (data : List Listing) (now : Int)
    (currentSearch currentSort : String) (append : Bool) (st : RenderState)
    (loadMoreVisible : Bool) : FetchOutcome :=
  let listings := data.filter (fun listing => !(isListingEnded now listing))
  let sorted :=
    if currentSearch ≠ "" then sortSearchResults listings currentSearch currentSort
    else sortNonSearchResults listings currentSort
  let rendered := renderListings sorted append st
  let visible :=
    if rendered.2 < PAGE_SIZE then false
    else if !append then true
    else loadMoreVisible
  ⟨rendered.1, rendered.2, visible⟩

/-- isAuctionEnded, src/js/pages/listing.js lines 145-150 and
src/js/pages/listingUtils.js lines 71-76 (the two bodies are identical). -/
def isAuctionEnded (now : Int) (listing : Listing) : Bool :=
  match listing.endsAt with
  | some endTime => decide (endTime ≤ now)
  | none => false

/-- Outcome of the setupBidForm guard chain. -/
inductive BidFormSetup where
  | disabled (message : String)
  | enabled
  deriving Repr, DecidableEq

/-- The disable decision chain at the start of setupBidForm,
src/js/pages/listing.js lines 574-614.  authName models auth and auth.name
(none for no stored session). -/
def setupBidFormState (now : Int) (authName : Option String) (listing : Listing) :
    BidFormSetup :=
  match authName with
  | none => .disabled "Login to place a bid."
  | some name =>
    if name = "" then .disabled "Login to place a bid."
    else
      let sellerName := (listing.seller.bind SellerInfo.name).getD ""
      if sellerName ≠ "" ∧ name = sellerName then
        .disabled "You cannot bid on your own listing."
      else if isAuctionEnded now listing then .disabled "This auction has ended."
      else .enabled

/-- What a bid form submission does: reject client-side with an inline
message, or call placeBid with the parsed amount. -/
inductive BidAction where
  | rejected (message : String)
  | placed (amount : Rat)
  deriving Repr, DecidableEq

/-- The validation head of the submit handler in setupBidForm,
src/js/pages/listing.js lines 620-639.  rawValue is input.value.trim();
amount models Number(rawValue), with none for NaN. -/
def bidSubmitAction (rawValue : String) (amount : Option Rat) : BidAction :=
  if rawValue = "" ∨ amount = none ∨ amount.getD 0 ≤ 0 then
    .rejected "Please enter a valid bid amount."
  else
    .placed (amount.getD 0)

/-- Parsed JSON values, as produced by response.json() / JSON.parse. -/
inductive JValue where
  | null
  | bool (b : Bool)
  | num (n : Int)
  | str (s : String)
  | arr (elems : List JValue)
  | obj (fields : List (String × JValue))
  deriving Repr

/-- JavaScript truthiness of a JSON value. -/
def JValue.truthy : JValue → Bool
  | .null => false
  | .bool b => b
  | .num n => n != 0
  | .str s => s != ""
  | .arr _ => true
  | .obj _ => true

/-- JavaScript property read json.key (none models undefined, also for
non-object values). -/
def JValue.getField : JValue → String → Option JValue
  | .obj fields, key => fields.lookup key
  | _, _ => none

/-- The json && typeof json === object test (null is falsy, arrays pass). -/
def JValue.isObjectLike : JValue → Bool
  | .arr _ => true
  | .obj _ => true
  | _ => false

/-- The errors[0].message branch of errorMessageFrom,
src/js/api/httpClient.js lines 47-52: some value exactly when the branch
returns, none when control falls through to the message check. -/
def firstErrorsMessage (json : JValue) : Option JValue :=
  match json.getField "errors" with
  | some (.arr (first :: _)) =>
    if first.truthy then
      match first.getField "message" with
      | some m => if m.truthy then some m else none
      | none => none
    else none
  | _ => none

/-- A field read that succeeds only on a truthy value (the if (json.message)
and if (json.status) guards). -/
def truthyField (json : JValue) (key : String) : Option JValue :=
  match json.getField key with
  | some v => if v.truthy then some v else none
  | none => none

/-- errorMessageFrom, src/js/api/httpClient.js lines 45-64. -/
def errorMessageFrom (json : JValue) (fallback : String) : JValue :=
  let fromBody : Option JValue :=
    if json.truthy && json.isObjectLike then
      (firstErrorsMessage json).orElse fun _ =>
        (truthyField json "message").orElse fun _ => truthyField json "status"
    else none
  match fromBody with
  | some m => m
  | none => .str (if fallback = "" then "Request failed" else fallback)

/-- A fetch response as seen by the request helper: HTTP status, statusText,
and the parsed body.  JValue.null also models a body that failed to parse,
since safeJsonParseResponse (httpClient.js lines 233-239) returns null. -/
structure HttpResponse where
  status : Nat
  statusText : String
  body : JValue

/-- Response.ok: status in the range 200-299. -/
def HttpResponse.ok (res : HttpResponse) : Bool :=
  decide (200 ≤ res.status ∧ res.status < 300)

/-- The response-handling tail of request, src/js/api/httpClient.js lines
283-297: throw (Except.error) on a non-OK status, otherwise unwrap the data
envelope when present. -/
def request (res : HttpResponse) : Except JValue JValue :=
  if !res.ok then
    .error (errorMessageFrom res.body
      (if res.statusText = "" then "Request failed" else res.statusText))
  else if res.body.truthy && res.body.isObjectLike
      && (res.body.getField "data").isSome then
    .ok ((res.body.getField "data").getD .null)
  else
    .ok res.body

/-- The rawMessage extraction in extractBidErrorMessage,
src/js/pages/listing.js lines 690-702.  A truthy non-string errors[0].message
would make the browser code throw on toLowerCase before producing any
message; the model keeps the empty string for that unreachable corner. -/
def extractRawMessage (error : JValue) : String :=
  if error.truthy && error.isObjectLike then
    match error.getField "message" with
    | some (.str s) => s
    | _ =>
      match error.getField "errors" with
      | some (.arr (first :: _)) =>
        if first.truthy then
          match first.getField "message" with
          | some m => if m.truthy then (match m with | .str s => s | _ => "") else ""
          | none => ""
        else ""
      | _ => ""
  else ""

/-- The fixed bid-too-low message, src/js/pages/listing.js line 711. -/
def bidTooLowMessage : String :=
  "Your bid is too low. Please place a higher bid than the current highest bid."

/-- The fixed not-enough-credits message, src/js/pages/listing.js line 715. -/
def notEnoughCreditsMessage : String :=
  "You do not have enough credits to place this bid."

/-- The fixed fallback message, src/js/pages/listing.js line 722. -/
def bidFallbackMessage : String := "Failed to place bid. Please try again."

/-- extractBidErrorMessage, src/js/pages/listing.js lines 689-723. -/
def extractBidErrorMessage (error : JValue) : String :=
  let rawMessage := extractRawMessage error
  let lower := jsToLower rawMessage
  if strContains lower "higher" || strContains lower "too low"
      || strContains lower "maximum bid" then
    bidTooLowMessage
  else if strContains lower "credit" then
    notEnoughCreditsMessage
  else if lower ≠ "" then
    rawMessage
  else
    bidFallbackMessage

/-! ## Shared helper lemmas -/

lemma strContains_empty {q : String} (hq : q ≠ "") : strContains "" q = false := by
  simp only [strContains, decide_eq_false_iff_not]
  intro h
  apply hq
  cases q with
  | mk d =>
    have hd : d = [] := by simpa [List.infix_nil] using h
    subst hd; rfl

lemma jsToLower_eq_empty_iff (s : String) : jsToLower s = "" ↔ s = "" := by
  cases s with
  | mk d =>
    constructor
    · intro h
      have hd : d.map Char.toLower = [] := congrArg String.data h
      have hnil : d = [] := List.map_eq_nil_iff.mp hd
      subst hnil; rfl
    · intro h
      have hd : d = [] := congrArg String.data h
      subst hd; rfl

/-! ## C1: relevance scoring -/

/-- The per-field point schedule exactly as the specification words it:
100/60 for an exact/substring title match, 40/20 per tag, +20 for a
description substring match, +10 for a seller-name substring match, summed. -/
def specRelevanceScore (listing : Listing) (q : String) : Nat :=
  (if jsToLower (listing.title.getD "") = q then 100
   else if strContains (jsToLower (listing.title.getD "")) q then 60 else 0)
  + (listing.tags.map (fun tag =>
      if jsToLower tag = q then 40
      else if strContains (jsToLower tag) q then 20 else (0 : Nat))).sum
  + (if strContains (jsToLower (listing.description.getD "")) q then 20 else 0)
  + (if strContains (jsToLower ((listing.seller.bind SellerInfo.name).getD "")) q
     then 10 else 0)

lemma foldl_add_map {α : Type} (f : α → Nat) (l : List α) :
    ∀ init : Nat, l.foldl (fun s a => s + f a) init = init + (l.map f).sum := by
  induction l with
  | nil => intro init; simp
  | cons a t ih =>
    intro init
    simp only [List.foldl_cons, List.map_cons, List.sum_cons, ih]
    omega

/-- C1: for every listing and every non-empty lowercase query, the relevance
score computed by getRelevanceScore is the sum of the fixed per-field points
the specification lists (100/60 title, 40/20 per tag, +20 description, +10
seller name). -/
theorem getRelevanceScore_matches_spec (listing : Listing) (query : String)
    (hne : query ≠ "") (hlow : jsToLower query = query) :
    getRelevanceScore listing query = specRelevanceScore listing query := by
  unfold getRelevanceScore specRelevanceScore
  rw [if_neg hne]
  simp only [hlow]
  have hstep :
      (fun (score : Nat) (tag : String) =>
        if jsToLower tag = "" then score
        else if jsToLower tag = query then score + 40
        else if strContains (jsToLower tag) query then score + 20
        else score)
      = fun (score : Nat) (tag : String) => score +
          (if jsToLower tag = query then 40
           else if strContains (jsToLower tag) query then 20 else 0) := by
    funext score tag
    by_cases h0 : jsToLower tag = ""
    · have h1 : jsToLower tag ≠ query := fun h => hne (h0 ▸ h).symm
      have h2 : strContains (jsToLower tag) query = false := by
        rw [h0]; exact strContains_empty hne
      simp [h0, h1, h2, Ne.symm hne, strContains_empty hne]
    · by_cases h1 : jsToLower tag = query
      · simp [h0, h1, hne]
      · by_cases h2 : strContains (jsToLower tag) query = true <;> simp [h0, h1, h2]
  rw [hstep, foldl_add_map]
  by_cases hd : jsToLower (listing.description.getD "") = ""
  · have hdc : strContains (jsToLower (listing.description.getD "")) query = false := by
      rw [hd]; exact strContains_empty hne
    by_cases hs : jsToLower ((listing.seller.bind SellerInfo.name).getD "") = ""
    · have hsc :
          strContains (jsToLower ((listing.seller.bind SellerInfo.name).getD "")) query
            = false := by
        rw [hs]; exact strContains_empty hne
      simp [hd, hs, hdc, hsc, strContains_empty hne]
    · by_cases hsc :
        strContains (jsToLower ((listing.seller.bind SellerInfo.name).getD "")) query = true
        <;> simp [hd, hs, hdc, hsc, strContains_empty hne]
  · by_cases hdc :
      strContains (jsToLower (listing.description.getD "")) query = true
    · by_cases hs : jsToLower ((listing.seller.bind SellerInfo.name).getD "") = ""
      · have hsc :
            strContains (jsToLower ((listing.seller.bind SellerInfo.name).getD "")) query
              = false := by
          rw [hs]; exact strContains_empty hne
        simp [hd, hs, hdc, hsc, strContains_empty hne]
      · by_cases hsc :
          strContains (jsToLower ((listing.seller.bind SellerInfo.name).getD "")) query = true
          <;> simp [hd, hs, hdc, hsc, strContains_empty hne]
    · by_cases hs : jsToLower ((listing.seller.bind SellerInfo.name).getD "") = ""
      · have hsc :
            strContains (jsToLower ((listing.seller.bind SellerInfo.name).getD "")) query
              = false := by
          rw [hs]; exact strContains_empty hne
        simp [hd, hs, hdc, hsc, strContains_empty hne]
      · by_cases hsc :
          strContains (jsToLower ((listing.seller.bind SellerInfo.name).getD "")) query = true
          <;> simp [hd, hs, hdc, hsc, strContains_empty hne]

/-- C1 witness: for query camera and a listing titled exactly camera with no
other matching field, both the code and the specification schedule give 100. -/
theorem getRelevanceScore_matches_spec_witness :
    getRelevanceScore { title := some "camera" } "camera" = 100 :=
  (getRelevanceScore_matches_spec { title := some "camera" } "camera"
    (by decide) (by decide)).trans (by decide)

/-! ## C2: search result ordering -/

/-- C2: the comparator used by sortSearchResults agrees with the selected
secondary comparator exactly on equal relevance scores, orders unequal scores
descending regardless of the secondary key, and the three secondary
comparators order by created time descending, endsAt time ascending, and
highest bid descending respectively. -/
theorem searchResultCmp_matches_spec (query sortKey : String) (a b : Listing) :
    (∀ cmp, sortComparators sortKey = some cmp →
      getRelevanceScore a query = getRelevanceScore b query →
      searchResultCmp query sortKey a b = cmp a b)
    ∧ (getRelevanceScore b query < getRelevanceScore a query →
        searchResultCmp query sortKey a b < 0)
    ∧ (getRelevanceScore a query < getRelevanceScore b query →
        0 < searchResultCmp query sortKey a b)
    ∧ (newestCmp a b < 0 ↔
        ∃ aTime bTime, a.created = some aTime ∧ b.created = some bTime ∧ bTime < aTime)
    ∧ (endingSoonCmp a b < 0 ↔
        ∃ aEnd bEnd, a.endsAt = some aEnd ∧ b.endsAt = some bEnd ∧ aEnd < bEnd)
    ∧ (highestBidCmp a b < 0 ↔ getHighestBidAmount b < getHighestBidAmount a) := by
  refine ⟨?_, ?_, ?_, ?_, ?_, ?_⟩
  · intro cmp hcmp heq
    have hkey : ¬ sortKey = "" := by
      intro h; rw [h] at hcmp; simp [sortComparators] at hcmp
    simp [searchResultCmp, hkey, hcmp, heq]
  · intro h
    have hne : (getRelevanceScore a query : Int) ≠ (getRelevanceScore b query : Int) := by
      exact_mod_cast Nat.ne_of_gt h
    simp only [searchResultCmp, ne_eq, hne, not_false_eq_true, if_true, if_pos hne]
    omega
  · intro h
    have hne : (getRelevanceScore a query : Int) ≠ (getRelevanceScore b query : Int) := by
      exact_mod_cast Nat.ne_of_lt h
    simp only [searchResultCmp, ne_eq, hne, not_false_eq_true, if_true, if_pos hne]
    omega
  · unfold newestCmp
    cases hac : a.created with
    | none => simp [hac]
    | some aTime =>
      cases hbc : b.created with
      | none => simp [hbc]
      | some bTime =>
        by_cases he : aTime = bTime
        · subst he; simp
        · simp only [he, if_false]
          constructor
          · intro h; exact ⟨aTime, bTime, rfl, rfl, by omega⟩
          · rintro ⟨x, y, hx, hy, hlt⟩
            cases hx; cases hy; omega
  · unfold endingSoonCmp
    cases hae : a.endsAt with
    | none => simp [hae]
    | some aEnd =>
      cases hbe : b.endsAt with
      | none => simp [hbe]
      | some bEnd =>
        by_cases he : aEnd = bEnd
        · subst he; simp
        · simp only [he, if_false]
          constructor
          · intro h; exact ⟨aEnd, bEnd, rfl, rfl, by omega⟩
          · rintro ⟨x, y, hx, hy, hlt⟩
            cases hx; cases hy; omega
  · unfold highestBidCmp
    omega

/-- C2 witness: two listings with equal (zero) relevance score for query z are
ordered by the newest secondary comparator. -/
theorem searchResultCmp_matches_spec_witness :
    searchResultCmp "z" "newest" { created := some 5 } { created := some 3 }
      = newestCmp { created := some 5 } { created := some 3 } :=
  (searchResultCmp_matches_spec "z" "newest"
    { created := some 5 } { created := some 3 }).1 newestCmp rfl (by decide)

/-! ## C3: pagination / de-duplication tracking -/

/-- The ids of the listings currently rendered in the container. -/
def renderedIds (st : RenderState) : List String := st.rendered.filterMap listingIdOf

lemma renderFold_append_invariant (listings : List Listing) :
    ∀ (st : RenderState) (n : Nat),
      (∀ id, id ∈ st.loadedListingIds ↔ id ∈ renderedIds st) →
      (renderedIds st).Nodup →
      (∀ id, id ∈ (listings.foldl (renderOne true) (st, n)).1.loadedListingIds ↔
        id ∈ renderedIds (listings.foldl (renderOne true) (st, n)).1)
      ∧ (renderedIds (listings.foldl (renderOne true) (st, n)).1).Nodup := by
  induction listings with
  | nil => intro st n hinv hnd; exact ⟨hinv, hnd⟩
  | cons l rest ih =>
    intro st n hinv hnd
    rw [List.foldl_cons]
    cases hl : listingIdOf l with
    | none =>
      have hst : renderOne true (st, n) l
          = (⟨st.rendered ++ [l], st.loadedListingIds⟩, n + 1) := by
        simp [renderOne, hl]
      rw [hst]
      have hrid : renderedIds ⟨st.rendered ++ [l], st.loadedListingIds⟩ = renderedIds st := by
        simp [renderedIds, List.filterMap_append, hl]
      exact ih _ _ (fun id => by rw [hrid]; exact hinv id) (by rw [hrid]; exact hnd)
    | some id =>
      by_cases hmem : id ∈ st.loadedListingIds
      · have hst : renderOne true (st, n) l = (st, n) := by
          simp [renderOne, hl, hmem]
        rw [hst]
        exact ih st n hinv hnd
      · have hst : renderOne true (st, n) l
            = (⟨st.rendered ++ [l], st.loadedListingIds ++ [id]⟩, n + 1) := by
          simp [renderOne, hl, hmem, setAdd]
        rw [hst]
        have hrid : renderedIds ⟨st.rendered ++ [l], st.loadedListingIds ++ [id]⟩
            = renderedIds st ++ [id] := by
          simp [renderedIds, List.filterMap_append, hl]
        have hnotr : id ∉ renderedIds st := fun h => hmem ((hinv id).mpr h)
        apply ih
        · intro i
          rw [hrid]
          simp only [List.mem_append, List.mem_singleton]
          exact or_congr_left (hinv i)
        · rw [hrid]
          simp [List.nodup_append, hnd, hnotr]

lemma renderFold_fresh (listings : List Listing) :
    ∀ (st : RenderState) (n : Nat),
      (∀ id, id ∈ st.loadedListingIds ↔ id ∈ renderedIds st) →
      (renderedIds st).Nodup →
      (listings.filterMap listingIdOf).Nodup →
      (∀ id, id ∈ listings.filterMap listingIdOf → id ∉ renderedIds st) →
      (listings.foldl (renderOne false) (st, n)).1.rendered = st.rendered ++ listings
      ∧ (∀ id, id ∈ (listings.foldl (renderOne false) (st, n)).1.loadedListingIds ↔
          id ∈ renderedIds (listings.foldl (renderOne false) (st, n)).1)
      ∧ (renderedIds (listings.foldl (renderOne false) (st, n)).1).Nodup := by
  induction listings with
  | nil => intro st n hinv hnd _ _; exact ⟨by simp, hinv, hnd⟩
  | cons l rest ih =>
    intro st n hinv hnd hnodup hdisj
    rw [List.foldl_cons]
    cases hl : listingIdOf l with
    | none =>
      have hst : renderOne false (st, n) l
          = (⟨st.rendered ++ [l], st.loadedListingIds⟩, n + 1) := by
        simp [renderOne, hl]
      rw [hst]
      have hrid : renderedIds ⟨st.rendered ++ [l], st.loadedListingIds⟩ = renderedIds st := by
        simp [renderedIds, List.filterMap_append, hl]
      have hmap : rest.filterMap listingIdOf = (l :: rest).filterMap listingIdOf := by
        simp [List.filterMap_cons, hl]
      obtain ⟨h1, h2, h3⟩ := ih ⟨st.rendered ++ [l], st.loadedListingIds⟩ (n + 1)
        (fun id => by rw [hrid]; exact hinv id) (by rw [hrid]; exact hnd)
        (by rw [hmap]; exact hnodup)
        (fun id hm => by rw [hrid]; exact hdisj id (by rw [← hmap]; exact hm))
      refine ⟨?_, h2, h3⟩
      rw [h1]; simp
    | some id =>
      have hidhead : id ∈ (l :: rest).filterMap listingIdOf := by
        simp [List.filterMap_cons, hl]
      have hnotr : id ∉ renderedIds st := hdisj id hidhead
      have hnotl : id ∉ st.loadedListingIds := fun h => hnotr ((hinv id).mp h)
      have hst : renderOne false (st, n) l
          = (⟨st.rendered ++ [l], st.loadedListingIds ++ [id]⟩, n + 1) := by
        simp [renderOne, hl, setAdd, hnotl]
      rw [hst]
      have hrid : renderedIds ⟨st.rendered ++ [l], st.loadedListingIds ++ [id]⟩
          = renderedIds st ++ [id] := by
        simp [renderedIds, List.filterMap_append, hl]
      have hmap : (l :: rest).filterMap listingIdOf = id :: rest.filterMap listingIdOf := by
        simp [List.filterMap_cons, hl]
      have hrestnodup : (rest.filterMap listingIdOf).Nodup := by
        rw [hmap] at hnodup; exact hnodup.of_cons
      have hidnotrest : id ∉ rest.filterMap listingIdOf := by
        rw [hmap] at hnodup; exact (List.nodup_cons.mp hnodup).1
      obtain ⟨h1, h2, h3⟩ := ih ⟨st.rendered ++ [l], st.loadedListingIds ++ [id]⟩ (n + 1)
        (fun i => by
          rw [hrid]
          simp only [List.mem_append, List.mem_singleton]
          exact or_congr_left (hinv i))
        (by rw [hrid]; simp [List.nodup_append, hnd, hnotr])
        hrestnodup
        (fun i hm => by
          rw [hrid]
          simp only [List.mem_append, List.mem_singleton]
          rintro (hir | hieq)
          · exact hdisj i (by rw [hmap]; exact List.mem_cons_of_mem _ hm) hir
          · exact hidnotrest (hieq ▸ hm))
      refine ⟨?_, h2, h3⟩
      rw [h1]; simp

/-- C3 (amended): the loadedListingIds set always holds exactly the ids of the
rendered listings, the set and the container are rebuilt from the input array
on a fresh render, an already-loaded id is skipped when appending, and no id
is rendered twice provided a fresh (append = false) input array does not
itself repeat an id. -/
theorem renderListings_no_duplicates (listings : List Listing) (append : Bool)
    (st : RenderState)
    (hinv : ∀ id, id ∈ st.loadedListingIds ↔ id ∈ renderedIds st)
    (hnd : (renderedIds st).Nodup)
    (hfresh : append = false → (listings.filterMap listingIdOf).Nodup) :
    (∀ id, id ∈ (renderListings listings append st).1.loadedListingIds ↔
        id ∈ renderedIds (renderListings listings append st).1)
    ∧ (renderedIds (renderListings listings append st).1).Nodup
    ∧ (append = false → (renderListings listings append st).1.rendered = listings) := by
  cases append with
  | false =>
    unfold renderListings
    simp only [Bool.false_eq_true, if_false]
    obtain ⟨h1, h2, h3⟩ := renderFold_fresh listings ⟨[], []⟩ 0
      (by simp [renderedIds]) (by simp [renderedIds]) (hfresh rfl)
      (by simp [renderedIds])
    exact ⟨h2, h3, fun _ => by rw [h1]; simp⟩
  | true =>
    unfold renderListings
    simp only [if_true]
    obtain ⟨h1, h2⟩ := renderFold_append_invariant listings st 0 hinv hnd
    exact ⟨h1, h2, fun h => by cases h⟩

/-- C3 witness: a fresh render of two distinct ids rebuilds the container
from the input array with no duplicate. -/
theorem renderListings_no_duplicates_witness :
    (renderListings [({ id := some "a" } : Listing), { id := some "b" }] false
      ⟨[], []⟩).1.rendered = [({ id := some "a" } : Listing), { id := some "b" }] :=
  (renderListings_no_duplicates [{ id := some "a" }, { id := some "b" }] false ⟨[], []⟩
    (by simp [renderedIds]) (by simp [renderedIds]) (fun _ => by decide)).2.2 rfl

/-- C3 counterexample: a fresh render (append = false) of an input array that
contains the same listing id twice renders that id twice, so the claim that no
listing id is ever rendered twice fails; the de-duplication check only runs
when append is true. -/
theorem renderListings_duplicate_counterexample :
    ((renderListings [{ id := some "a" }, { id := some "a" }] false
        ⟨[], []⟩).1.rendered.filterMap listingIdOf) = ["a", "a"]
    ∧ ¬ (((renderListings [{ id := some "a" }, { id := some "a" }] false
        ⟨[], []⟩).1.rendered.filterMap listingIdOf).Nodup) := by
  constructor
  · rfl
  · decide

/-! ## C4: highest bid amount -/

/-- The list of bid amounts of a listing, with a missing or non-numeric amount
reading as 0 (the typeof guard in the reducer). -/
def bidAmounts (listing : Listing) : List Int :=
  (listing.bids.getD []).map (fun bid => bid.amount.getD 0)

lemma foldl_max_init (xs : List Int) : ∀ a b : Int,
    xs.foldl max (max a b) = max a (xs.foldl max b) := by
  induction xs with
  | nil => intro a b; simp
  | cons c t ih =>
    intro a b
    rw [List.foldl_cons, List.foldl_cons, max_assoc, ih]

lemma maxStep_eq :
    (fun (mx : Int) (bid : Bid) =>
      let amount := bid.amount.getD 0
      if amount > mx then amount else mx)
    = fun (mx : Int) (bid : Bid) => max mx (bid.amount.getD 0) := by
  funext mx bid
  by_cases h : bid.amount.getD 0 > mx
  · simp only [h, if_true, if_pos h]
    exact (max_eq_right (le_of_lt h)).symm
  · simp only [h, if_false, if_neg h]
    exact (max_eq_left (not_lt.mp h)).symm

/-- C4 counterexample: for a listing whose only bid has amount -1, the code
returns 0 while the maximum of the amounts is -1, so the result does not
always equal the maximum bid amount. -/
theorem getHighestBidAmount_negative_counterexample :
    getHighestBidAmount { bids := some [{ amount := some (-1) }] } = 0
    ∧ (bidAmounts { bids := some [{ amount := some (-1) }] }).max? = some (-1)
    ∧ (0 : Int) ≠ -1 := by
  refine ⟨by rfl, by decide, by decide⟩

/-- Folding the bid reducer equals folding max over the mapped amounts. -/
lemma foldl_bid_max (bs : List Bid) : ∀ init : Int,
    bs.foldl (fun mx bid => max mx (bid.amount.getD 0)) init
      = (bs.map (fun bid => bid.amount.getD 0)).foldl max init := by
  induction bs with
  | nil => intro init; rfl
  | cons b t ih => intro init; simp only [List.foldl_cons, List.map_cons, ih]

/-- C4 (amended): getHighestBidAmount returns 0 for a missing, non-array or
empty bids array, and otherwise the maximum of the bid amounts clamped below
at 0 (non-numeric amounts reading as 0); in particular it equals the maximum
amount whenever that maximum is non-negative. -/
theorem getHighestBidAmount_spec (listing : Listing) :
    (listing.bids = none ∨ listing.bids = some [] → getHighestBidAmount listing = 0)
    ∧ (∀ m, (bidAmounts listing).max? = some m → getHighestBidAmount listing = max 0 m)
    ∧ (∀ m, (bidAmounts listing).max? = some m → 0 ≤ m →
        getHighestBidAmount listing = m) := by
  have hmax : ∀ m, (bidAmounts listing).max? = some m →
      getHighestBidAmount listing = max 0 m := by
    intro m hm
    unfold bidAmounts at hm
    cases hb : listing.bids with
    | none => rw [hb] at hm; simp at hm
    | some bids =>
      cases bids with
      | nil => rw [hb] at hm; simp at hm
      | cons b bs =>
        rw [hb] at hm
        simp only [Option.getD_some, List.map_cons] at hm
        have hm2 : (bs.map (fun bid => bid.amount.getD 0)).foldl max (b.amount.getD 0)
            = m := Option.some.inj hm
        unfold getHighestBidAmount
        rw [hb]
        simp only [Option.getD_some, List.isEmpty_cons, Bool.false_eq_true, if_false]
        rw [maxStep_eq, foldl_bid_max, List.map_cons, List.foldl_cons,
          show max (0 : Int) (b.amount.getD 0) = max 0 (b.amount.getD 0) from rfl,
          foldl_max_init, hm2]
  refine ⟨?_, hmax, ?_⟩
  · rintro (h | h) <;> simp [getHighestBidAmount, h]
  · intro m hm h0
    rw [hmax m hm]
    exact max_eq_right h0

/-- C4 witness: a listing with bid amounts 5 and 2 has highest bid 5, the
maximum of its amounts. -/
theorem getHighestBidAmount_spec_witness :
    getHighestBidAmount { bids := some [{ amount := some 5 }, { amount := some 2 }] } = 5 :=
  (getHighestBidAmount_spec
    { bids := some [{ amount := some 5 }, { amount := some 2 }] }).2.2 5
    (by decide) (by decide)

/-! ## C5 and C6: the index fetch pipeline -/

lemma sortSearchResults_perm (listings : List Listing) (query sortKey : String) :
    (sortSearchResults listings query sortKey).Perm listings := by
  unfold sortSearchResults
  split
  · exact List.Perm.refl _
  · exact List.mergeSort_perm listings _

lemma sortNonSearchResults_perm (listings : List Listing) (sortKey : String) :
    (sortNonSearchResults listings sortKey).Perm listings := by
  unfold sortNonSearchResults
  split
  · exact List.Perm.refl _
  · split
    · exact List.mergeSort_perm listings _
    · exact List.Perm.refl _

lemma renderFold_rendered_mem (append : Bool) (listings : List Listing) :
    ∀ (st : RenderState) (n : Nat) (l : Listing),
      l ∈ (listings.foldl (renderOne append) (st, n)).1.rendered →
      l ∈ st.rendered ∨ l ∈ listings := by
  induction listings with
  | nil => intro st n l h; exact Or.inl h
  | cons x rest ih =>
    intro st n l h
    rw [List.foldl_cons] at h
    have hsplit : ∀ st2 : RenderState, ∀ n2 : Nat,
        (st2.rendered = st.rendered ∨ st2.rendered = st.rendered ++ [x]) →
        l ∈ (rest.foldl (renderOne append) (st2, n2)).1.rendered →
        l ∈ st.rendered ∨ l ∈ x :: rest := by
      intro st2 n2 hr hmem
      rcases ih st2 n2 l hmem with hin | hin
      · rcases hr with hr | hr
        · exact Or.inl (hr ▸ hin)
        · rw [hr] at hin
          rcases List.mem_append.mp hin with h1 | h1
          · exact Or.inl h1
          · exact Or.inr (List.mem_cons.mpr (Or.inl (List.mem_singleton.mp h1)))
      · exact Or.inr (List.mem_cons_of_mem _ hin)
    cases hx : listingIdOf x with
    | none =>
      rw [show renderOne append (st, n) x
          = (⟨st.rendered ++ [x], st.loadedListingIds⟩, n + 1) from by
        simp [renderOne, hx]] at h
      exact hsplit _ _ (Or.inr rfl) h
    | some id =>
      by_cases hskip : append ∧ id ∈ st.loadedListingIds
      · rw [show renderOne append (st, n) x = (st, n) from by
          simp [renderOne, hx, hskip]] at h
        exact hsplit _ _ (Or.inl rfl) h
      · rw [show renderOne append (st, n) x
            = (⟨st.rendered ++ [x], setAdd st.loadedListingIds id⟩, n + 1) from by
          simp [renderOne, hx, hskip]] at h
        exact hsplit _ _ (Or.inr rfl) h

lemma renderFold_fresh_count (listings : List Listing) :
    ∀ (st : RenderState) (n : Nat),
      (listings.foldl (renderOne false) (st, n)).2 = n + listings.length := by
  induction listings with
  | nil => intro st n; simp
  | cons x rest ih =>
    intro st n
    rw [List.foldl_cons]
    cases hx : listingIdOf x with
    | none =>
      rw [show renderOne false (st, n) x
          = (⟨st.rendered ++ [x], st.loadedListingIds⟩, n + 1) from by
        simp [renderOne, hx]]
      rw [ih]
      simp [List.length_cons]
      omega
    | some id =>
      rw [show renderOne false (st, n) x
          = (⟨st.rendered ++ [x], setAdd st.loadedListingIds id⟩, n + 1) from by
        simp [renderOne, hx]]
      rw [ih]
      simp [List.length_cons]
      omega

/-- C5: a listing whose endsAt parses to a time at or before the current time
is classified ended by isListingEnded, is removed by the ended filter of the
fetch pipeline, and never appears among the listings such a fetch renders. -/
theorem ended_listing_excluded (data : List Listing) (now : Int)
    (currentSearch currentSort : String) (append : Bool) (st : RenderState)
    (vis : Bool) (listing : Listing) (endTime : Int)
    (hends : listing.endsAt = some endTime) (hpast : endTime ≤ now) :
    isListingEnded now listing = true
    ∧ listing ∉ data.filter (fun l => !(isListingEnded now l))
    ∧ (listing ∉ st.rendered →
        listing ∉ (fetchListingsCore data now currentSearch currentSort append st
          vis).state.rendered) := by
  have hended : isListingEnded now listing = true := by
    simp [isListingEnded, hends, hpast]
  have hfilter : listing ∉ data.filter (fun l => !(isListingEnded now l)) := by
    intro hmem
    have h2 := (List.mem_filter.mp hmem).2
    rw [hended] at h2
    simp at h2
  refine ⟨hended, hfilter, ?_⟩
  intro hst hmem
  unfold fetchListingsCore renderListings at hmem
  simp only at hmem
  have hmem2 := renderFold_rendered_mem append _ _ _ listing hmem
  rcases hmem2 with h | h
  · cases append with
    | false => simp at h
    | true => exact hst (by simpa using h)
  · apply hfilter
    by_cases hcs : currentSearch ≠ ""
    · rw [if_pos hcs] at h
      exact (sortSearchResults_perm _ _ _).mem_iff.mp h
    · rw [if_neg hcs] at h
      exact (sortNonSearchResults_perm _ _).mem_iff.mp h

/-- C5 witness: with the current time 5, a listing ending at time 0 is ended
and is not rendered by a fresh fetch that returned it. -/
theorem ended_listing_excluded_witness :
    ({ endsAt := some 0 } : Listing) ∉ (fetchListingsCore [{ endsAt := some 0 }] 5 ""
      "newest" false ⟨[], []⟩ false).state.rendered :=
  (ended_listing_excluded [{ endsAt := some 0 }] 5 "" "newest" false ⟨[], []⟩ false
    { endsAt := some 0 } 0 rfl (by decide)).2.2 (by simp)

lemma sortNonSearchResults_newest (listings : List Listing) :
    sortNonSearchResults listings "newest" = listings := by
  unfold sortNonSearchResults
  split
  · rfl
  · rw [if_neg (by decide)]

/-- C6 (amended): with no search term and the default newest sort, the issued
query string requests active listings with seller and bid data, limit
PAGE_SIZE = 12, the current page, sorted by created descending; a fresh fetch
renders exactly the returned listings that are not already ended (hence at
most 12 when the server honors the limit); and the load-more control ends up
visible exactly when at least PAGE_SIZE listings were rendered — which, when
no returned listing is ended client-side, happens exactly when 12 listings
were returned. -/
theorem fetchListings_first_page (data : List Listing) (now : Int) (p : Nat)
    (st : RenderState) (vis : Bool) :
    buildListingsQueryString "newest" p
      = "?" ++ String.intercalate "&"
          ["_active=true", "_seller=true", "_bids=true", "limit=12",
            "page=" ++ toString p, "sort=created", "sortOrder=desc"]
    ∧ (fetchListingsCore data now "" "newest" false st vis).newlyRenderedCount
        = (data.filter (fun l => !(isListingEnded now l))).length
    ∧ (data.length ≤ PAGE_SIZE →
        (fetchListingsCore data now "" "newest" false st vis).newlyRenderedCount
          ≤ PAGE_SIZE)
    ∧ ((fetchListingsCore data now "" "newest" false st vis).loadMoreVisible = true
        ↔ PAGE_SIZE ≤ (data.filter (fun l => !(isListingEnded now l))).length)
    ∧ ((∀ l ∈ data, isListingEnded now l = false) → data.length ≤ PAGE_SIZE →
        ((fetchListingsCore data now "" "newest" false st vis).loadMoreVisible = true
          ↔ data.length = PAGE_SIZE)) := by
  have hcount : (fetchListingsCore data now "" "newest" false st vis).newlyRenderedCount
      = (data.filter (fun l => !(isListingEnded now l))).length := by
    unfold fetchListingsCore renderListings
    simp only [ne_eq, not_true_eq_false, if_false, Bool.false_eq_true,
      sortNonSearchResults_newest]
    rw [renderFold_fresh_count]
    omega
  have hvis : (fetchListingsCore data now "" "newest" false st vis).loadMoreVisible
      = !decide ((data.filter (fun l => !(isListingEnded now l))).length < PAGE_SIZE) := by
    unfold fetchListingsCore renderListings
    simp only [ne_eq, not_true_eq_false, if_false, Bool.false_eq_true,
      sortNonSearchResults_newest]
    rw [renderFold_fresh_count]
    simp only [Nat.zero_add]
    by_cases h : (data.filter (fun l => !(isListingEnded now l))).length < PAGE_SIZE
    · simp [h]
    · simp [h]
  have hvis2 : ((fetchListingsCore data now "" "newest" false st vis).loadMoreVisible
      = true) ↔ PAGE_SIZE ≤ (data.filter (fun l => !(isListingEnded now l))).length := by
    rw [hvis]
    simp [Nat.not_lt]
  refine ⟨rfl, hcount, ?_, hvis2, ?_⟩
  · intro hle
    rw [hcount]
    exact le_trans (List.length_filter_le _ _) hle
  · intro hnone hle
    have hfe : data.filter (fun l => !(isListingEnded now l)) = data := by
      rw [List.filter_eq_self]
      intro a ha
      rw [hnone a ha]
      rfl
    rw [hvis2, hfe]
    omega

/-- C6 witness: twelve returned, none ended, fresh first page: all twelve are
rendered and the load-more control is shown. -/
theorem fetchListings_first_page_witness :
    (fetchListingsCore (List.replicate 12 ({ } : Listing)) 0 "" "newest" false
      ⟨[], []⟩ false).loadMoreVisible = true :=
  ((fetchListings_first_page (List.replicate 12 ({ } : Listing)) 0 1 ⟨[], []⟩
    false).2.2.2.2 (by decide) (by decide)).mpr (by decide)

/-- C6 counterexample: a request that returned exactly 12 listings one of
which is already ended (endsAt 0, current time 10) renders only 11 cards and
hides the load-more control, so the control is not shown if and only if
exactly 12 listings were returned. -/
theorem fetchListings_first_page_counterexample :
    (List.replicate 11 ({ } : Listing) ++ [({ endsAt := some 0 } : Listing)]).length = 12
    ∧ (fetchListingsCore (List.replicate 11 ({ } : Listing) ++ [({ endsAt := some 0 } : Listing)])
        10 "" "newest" false ⟨[], []⟩ false).loadMoreVisible = false := by
  exact ⟨by decide, by decide⟩

/-! ## C7: client-side bid validation -/

/-- C7: an empty, non-numeric, or non-positive trimmed bid input is rejected
client-side with the fixed message (so placeBid is never called), and the bid
API is reached only with a positive parsed amount. -/
theorem bidSubmitAction_validation (rawValue : String) (amount : Option Rat) :
    (rawValue = "" ∨ amount = none ∨ (∃ x, amount = some x ∧ x ≤ 0) →
      bidSubmitAction rawValue amount = .rejected "Please enter a valid bid amount.")
    ∧ (∀ x, bidSubmitAction rawValue amount = .placed x → 0 < x ∧ amount = some x) := by
  constructor
  · intro h
    unfold bidSubmitAction
    rcases h with h | h | ⟨x, hx, hle⟩
    · rw [if_pos (Or.inl h)]
    · rw [if_pos (Or.inr (Or.inl h))]
    · rw [if_pos (Or.inr (Or.inr (by rw [hx]; simpa using hle)))]
  · intro x hx
    unfold bidSubmitAction at hx
    by_cases hc : rawValue = "" ∨ amount = none ∨ amount.getD 0 ≤ 0
    · rw [if_pos hc] at hx
      cases hx
    · rw [if_neg hc] at hx
      push_neg at hc
      obtain ⟨h1, h2, h3⟩ := hc
      cases ha : amount with
      | none => exact absurd ha h2
      | some y =>
        rw [ha] at hx h3
        simp only [Option.getD_some, BidAction.placed.injEq] at hx
        simp only [Option.getD_some, not_le] at h3
        exact ⟨hx ▸ h3, by rw [hx]⟩

/-- C7 witness: the input 0 (which parses to the non-positive number 0) is
rejected with the fixed message. -/
theorem bidSubmitAction_validation_witness :
    bidSubmitAction "0" (some 0) = .rejected "Please enter a valid bid amount." :=
  (bidSubmitAction_validation "0" (some 0)).1 (Or.inr (Or.inr ⟨0, rfl, le_refl 0⟩))

/-! ## C10: missing or unparseable endsAt -/

/-- C10: a listing with a missing, null or unparseable endsAt is never
classified ended by either ended-check helper, survives the active-feed
filter, and its bid form is never disabled with the auction-ended message. -/
theorem missing_endsAt_never_ended (listing : Listing) (now : Int)
    (authName : Option String) (data : List Listing)
    (hnone : listing.endsAt = none) :
    isListingEnded now listing = false
    ∧ isAuctionEnded now listing = false
    ∧ (listing ∈ data → listing ∈ data.filter (fun l => !(isListingEnded now l)))
    ∧ setupBidFormState now authName listing ≠ .disabled "This auction has ended." := by
  have h1 : isListingEnded now listing = false := by simp [isListingEnded, hnone]
  have h2 : isAuctionEnded now listing = false := by simp [isAuctionEnded, hnone]
  refine ⟨h1, h2, ?_, ?_⟩
  · intro hmem
    rw [List.mem_filter]
    exact ⟨hmem, by rw [h1]; rfl⟩
  · intro hdis
    cases authName with
    | none =>
      simp only [setupBidFormState] at hdis
      exact absurd (BidFormSetup.disabled.inj hdis) (by decide)
    | some name =>
      simp only [setupBidFormState] at hdis
      by_cases hn : name = ""
      · rw [if_pos hn] at hdis
        exact absurd (BidFormSetup.disabled.inj hdis) (by decide)
      · rw [if_neg hn] at hdis
        by_cases hs : (listing.seller.bind SellerInfo.name).getD "" ≠ ""
            ∧ name = (listing.seller.bind SellerInfo.name).getD ""
        · rw [if_pos hs] at hdis
          exact absurd (BidFormSetup.disabled.inj hdis) (by decide)
        · rw [if_neg hs, h2] at hdis
          simp at hdis

/-- C10 witness: a listing with no endsAt at time 0 is not ended on either
page and keeps its bid form enabled for a logged-in non-seller. -/
theorem missing_endsAt_never_ended_witness :
    isListingEnded 0 ({ } : Listing) = false
    ∧ isAuctionEnded 0 ({ } : Listing) = false :=
  ⟨(missing_endsAt_never_ended { } 0 (some "bidder") [] rfl).1,
    (missing_endsAt_never_ended { } 0 (some "bidder") [] rfl).2.1⟩

/-! ## C8: the request helper -/

/-- The error message preference order the specification states: the first
available (truthy) among errors[0].message, message, status; then the HTTP
statusText; then the fixed default. -/
def specErrorMessage (body : JValue) (statusText : String) : JValue :=
  match (firstErrorsMessage body).orElse (fun _ =>
      (truthyField body "message").orElse (fun _ => truthyField body "status")) with
  | some m => m
  | none => if statusText = "" then .str "Request failed" else .str statusText

lemma chain_none_of_not_objectLike (body : JValue) (h : body.isObjectLike = false) :
    ((firstErrorsMessage body).orElse (fun _ =>
      (truthyField body "message").orElse (fun _ => truthyField body "status"))) = none := by
  have hf : ∀ key, body.getField key = none := by
    intro key
    cases body with
    | obj fields => simp [JValue.isObjectLike] at h
    | arr es => rfl
    | null => rfl
    | bool b => rfl
    | num n => rfl
    | str s => rfl
  simp [firstErrorsMessage, truthyField, hf]

lemma errorMessageFrom_eq_spec (body : JValue) (statusText : String) :
    errorMessageFrom body (if statusText = "" then "Request failed" else statusText)
      = specErrorMessage body statusText := by
  unfold errorMessageFrom specErrorMessage
  cases hguard : (body.truthy && body.isObjectLike) with
  | true =>
    cases hchain : ((firstErrorsMessage body).orElse (fun _ =>
        (truthyField body "message").orElse (fun _ => truthyField body "status"))) with
    | some m => simp [hguard, hchain]
    | none =>
      simp only [hguard, hchain, if_true]
      by_cases hst : statusText = "" <;> simp [hst]
  | false =>
    have hobj : body.isObjectLike = false := by
      cases body with
      | obj fields => simp [JValue.truthy, JValue.isObjectLike] at hguard
      | arr es => simp [JValue.truthy, JValue.isObjectLike] at hguard
      | null => rfl
      | bool b => rfl
      | num n => rfl
      | str s => rfl
    rw [chain_none_of_not_objectLike body hobj]
    simp only [hguard, Bool.false_eq_true, if_false]
    by_cases hst : statusText = "" <;> simp [hst]

/-- C8: the request helper throws exactly on a non-2xx status; the thrown
message follows the preference order errors[0].message, message, status,
statusText, fixed default; and an OK response yields the data field of the
body when the parsed JSON object has one, otherwise the full parsed body. -/
theorem request_spec (res : HttpResponse) :
    ((∃ e, request res = .error e) ↔ ¬(200 ≤ res.status ∧ res.status < 300))
    ∧ (¬(200 ≤ res.status ∧ res.status < 300) →
        request res = .error (specErrorMessage res.body res.statusText))
    ∧ (200 ≤ res.status ∧ res.status < 300 →
        (∀ d, res.body.getField "data" = some d → request res = .ok d)
        ∧ (res.body.getField "data" = none → request res = .ok res.body)) := by
  by_cases hst : 200 ≤ res.status ∧ res.status < 300
  · have hok : res.ok = true := by simp [HttpResponse.ok, hst]
    have hnoerr : ∀ e, request res ≠ .error e := by
      intro e he
      unfold request at he
      rw [hok] at he
      simp only [Bool.not_true, Bool.false_eq_true, if_false] at he
      split at he <;> cases he
    refine ⟨⟨fun ⟨e, he⟩ => absurd he (hnoerr e), fun h => absurd hst h⟩,
      fun h => absurd hst h, fun _ => ⟨?_, ?_⟩⟩
    · intro d hd
      have hbody : ∃ fields, res.body = .obj fields := by
        cases hb : res.body with
        | obj fields => exact ⟨fields, rfl⟩
        | arr es => rw [hb] at hd; cases hd
        | null => rw [hb] at hd; cases hd
        | bool b => rw [hb] at hd; cases hd
        | num n => rw [hb] at hd; cases hd
        | str s => rw [hb] at hd; cases hd
      obtain ⟨fields, hb⟩ := hbody
      unfold request
      rw [hok]
      simp [hb, JValue.truthy, JValue.isObjectLike, hb ▸ hd]
    · intro hd
      unfold request
      rw [hok]
      simp [hd]
  · have hok : res.ok = false := by simp [HttpResponse.ok, hst]
    have herr : request res = .error (specErrorMessage res.body res.statusText) := by
      unfold request
      rw [hok]
      simp only [Bool.not_false, if_true]
      exact congrArg Except.error (errorMessageFrom_eq_spec res.body res.statusText)
    exact ⟨⟨fun _ => hst, fun _ => ⟨_, herr⟩⟩, fun _ => herr, fun h => absurd h hst⟩

/-- C8 witness: a 404 with an errors array yields the nested error message. -/
theorem request_spec_witness :
    request ⟨404, "Not Found",
        .obj [("errors", .arr [.obj [("message", .str "Listing not found")]])]⟩
      = .error (.str "Listing not found") :=
  (request_spec ⟨404, "Not Found",
    .obj [("errors", .arr [.obj [("message", .str "Listing not found")]])]⟩).2.1
    (by decide)

/-! ## C9: bid error message heuristic -/

/-- C9: extractBidErrorMessage maps any raw message containing higher,
too low, or maximum bid to the fixed too-low message (this takes priority
over the credit rule), otherwise any message containing credit to the fixed
credits message, otherwise returns the raw message when non-empty, and a
fixed fallback when empty. -/
theorem extractBidErrorMessage_spec (error : JValue) :
    (extractBidErrorMessage error
      = (if strContains (jsToLower (extractRawMessage error)) "higher"
            || strContains (jsToLower (extractRawMessage error)) "too low"
            || strContains (jsToLower (extractRawMessage error)) "maximum bid" then
          bidTooLowMessage
        else if strContains (jsToLower (extractRawMessage error)) "credit" then
          notEnoughCreditsMessage
        else if extractRawMessage error ≠ "" then extractRawMessage error
        else bidFallbackMessage))
    ∧ (strContains (jsToLower (extractRawMessage error)) "too low" = true →
        extractBidErrorMessage error = bidTooLowMessage) := by
  constructor
  · unfold extractBidErrorMessage
    by_cases h1 : (strContains (jsToLower (extractRawMessage error)) "higher"
        || strContains (jsToLower (extractRawMessage error)) "too low"
        || strContains (jsToLower (extractRawMessage error)) "maximum bid") = true
    · simp [h1]
    · by_cases h2 : strContains (jsToLower (extractRawMessage error)) "credit" = true
      · simp [h1, h2]
      · by_cases h3 : extractRawMessage error = ""
        · have h4 : jsToLower (extractRawMessage error) = "" :=
            (jsToLower_eq_empty_iff _).mpr h3
          simp [h1, h2, h3, h4, show jsToLower "" = "" from rfl]
        · have h4 : jsToLower (extractRawMessage error) ≠ "" :=
            fun h => h3 ((jsToLower_eq_empty_iff _).mp h)
          simp [h1, h2, h3, h4]
  · intro h
    unfold extractBidErrorMessage
    simp [h]

/-- C9 witness: a message containing both too low and credit phrases maps to
the too-low message, showing the priority of the too-low rule. -/
theorem extractBidErrorMessage_spec_witness :
    extractBidErrorMessage (.obj [("message", .str "Bid too low, buy more credit")])
      = bidTooLowMessage :=
  (extractBidErrorMessage_spec
    (.obj [("message", .str "Bid too low, buy more credit")])).2 (by decide)

end StudioBid
